import Mathlib

/-!
Verification development for the quack dynamic-DNS updater.

The definitions below are a shallow embedding of the Rust sources:
`src/commands/update.rs` (the scheduled update loop), `src/parse_duration.rs`
(the duration-literal parser), `src/check_ip_opts.rs` (the service
specification parser) and `public_ip/src/lib.rs` (the public-IP resolver).
Machine integers are modelled as `Nat` with explicit bounds where overflow
matters; fallible code returns `Option`/`Except`; the network is modelled by
passing each tick's transport outcomes as explicit data.
-/

set_option maxHeartbeats 1000000

/-- Embedding of `std::net::Ipv4Addr`: four octets. Octet range is enforced by
the address parser below; for the scheduler the address is only compared for
equality. -/
structure Ipv4Addr where
  o1 : Nat
  o2 : Nat
  o3 : Nat
  o4 : Nat
deriving DecidableEq, Repr

/-- Embedding of `Ipv4Addr::UNSPECIFIED`, i.e. `0.0.0.0`. -/
def Ipv4Addr.UNSPECIFIED : Ipv4Addr := ⟨0, 0, 0, 0⟩

/-- Embedding of `duck_dns::Response` as an opaque token: the scheduler only
logs it, never inspects it. -/
structure DuckResponse where
  tag : Nat
deriving DecidableEq, Repr

/-! ## Scheduler loop (`src/commands/update.rs`)

Durations are modelled in whole seconds as `Nat`: every `Duration` this
program builds comes from `Duration::from_secs` (via `parse_duration` or
`Duration::from_secs(60)`), so whole seconds are exact.

One tick of the preflight loop consumes the transport's behaviour for that
tick: what `service.ipv4()` would return (`none` = resolution error), and
what `client.update(..)` would return if called (`none` = update error). -/

/-- Transport behaviour of a single preflight tick: result of
`service.ipv4().await` (`none` models `Err`) and of `client.update(args).await`
(`none` models `Err`; consulted only if the update call is made). -/
structure PreflightTick where
  resolveRes : Option Ipv4Addr
  updateRes : Option DuckResponse
deriving DecidableEq, Repr

/-- Result of `update_preflight_schedule` in `update.rs` lines 116-129: either
`Ok((Option<Response>, Ipv4Addr))` or `Err`. -/
inductive UPSResult where
  | ok (res : Option DuckResponse) (ip : Ipv4Addr)
  | err
deriving DecidableEq, Repr

/-- Embedding of `update_preflight_schedule` (`update.rs` lines 116-129),
additionally recording the arguments of the calls made to `client.update`
(the list is empty or a singleton). Control flow follows the source:
`service.ipv4().await?`; if `ip == prev_ip` return `Ok((None, prev_ip))`;
otherwise call `client.update(UpdateOptions::ipv4(ip, verbose)).await?` and
return `Ok((Some(response), ip))`. -/
def update_preflight_schedule (t : PreflightTick) (prev_ip : Ipv4Addr) :
    UPSResult × List Ipv4Addr :=
  match t.resolveRes with
  | none => (UPSResult.err, [])
  | some ip =>
    if ip = prev_ip then
      (UPSResult.ok none prev_ip, [])
    else
      match t.updateRes with
      | some r => (UPSResult.ok (some r) ip, [ip])
      | none => (UPSResult.err, [ip])

/-- Observable effect of one iteration of the scheduled loop: the state
`prev_ip` after the iteration, the update-client invocations made (their
`ipv4` arguments), and the duration slept at the end, in seconds. -/
structure TickResult where
  prev_ip : Ipv4Addr
  updateCalls : List Ipv4Addr
  sleep : Nat
deriving DecidableEq, Repr

/-- Embedding of one iteration of the preflight branch of the loop in
`Update::run` (`update.rs` lines 59-87): on `Ok((res, ip))` set
`prev_ip = ip` and fall through to `tokio::time::sleep(schedule)`; on `Err`
sleep `schedule.min(Duration::from_secs(60))` and `continue` (state
unchanged). `schedule` is the configured tick interval in seconds. -/
def preflightTick (schedule : Nat) (t : PreflightTick) (prev_ip : Ipv4Addr) :
    TickResult :=
  match update_preflight_schedule t prev_ip with
  | (UPSResult.ok _ ip, calls) => ⟨ip, calls, schedule⟩
  | (UPSResult.err, calls) => ⟨prev_ip, calls, min schedule 60⟩

/-- Embedding of a finite prefix of the (infinite) preflight loop: run one
tick per element of `ticks`, threading `prev_ip`, and collect the final state
together with every update-client invocation in order. -/
def preflightRun (schedule : Nat) (ticks : List PreflightTick)
    (prev_ip : Ipv4Addr) : Ipv4Addr × List Ipv4Addr :=
  match ticks with
  | [] => (prev_ip, [])
  | t :: rest =>
    let r := preflightTick schedule t prev_ip
    let rec_result := preflightRun schedule rest r.prev_ip
    (rec_result.1, r.updateCalls ++ rec_result.2)

/-- Embedding of `prev_ip`'s initialisation in `Update::run` line 57:
`let mut prev_ip = Ipv4Addr::UNSPECIFIED;`. -/
def initialPrevIp : Ipv4Addr := Ipv4Addr.UNSPECIFIED

/-- Observable effect of one iteration of the non-preflight (unconditional)
branch of the scheduled loop: whether the update client was called, and the
sleep that follows, in seconds. -/
structure UncondTickResult where
  updateCalled : Bool
  sleep : Nat
deriving DecidableEq, Repr

/-- Embedding of one iteration of the unconditional branch of the loop in
`Update::run` (`update.rs` lines 78-87): `update_schedule` always issues one
update call; its `Ok` or `Err` result is only logged, and the loop falls
through to `tokio::time::sleep(schedule)` either way. -/
def unconditionalTick (schedule : Nat) (updateRes : Option DuckResponse) :
    UncondTickResult :=
  match updateRes with
  | some _ => ⟨true, schedule⟩
  | none => ⟨true, schedule⟩

/-! ## Embedding of the nom parser combinators

The configuration parsers in `src/parse_duration.rs` and
`src/check_ip_opts.rs` are written with nom's complete-input combinators over
`&str`. A parser is embedded as a function from the input (a `List Char`) to
`none` (nom `Err`) or the remaining input paired with the produced value. -/

/-- Embedding of a nom parser over `&str`. -/
def NomP (α : Type) : Type := List Char → Option (List Char × α)

/-- Embedding of `nom::bytes::complete::tag`. -/
def ptag (t : List Char) : NomP (List Char) := fun i =>
  if t.isPrefixOf i then some (i.drop t.length, t) else none

/-- Embedding of `nom::character::complete::one_of`: one character drawn from
the given set. -/
def one_of (s : List Char) : NomP Char := fun i =>
  match i with
  | [] => none
  | c :: rest => if c ∈ s then some (rest, c) else none

/-- Embedding of `nom::multi::many0(one_of s)`: since `one_of` consumes
exactly one character, `many0` of it consumes the longest prefix of
characters drawn from `s`. -/
def many0_one_of (s : List Char) : NomP (List Char) := fun i =>
  some (i.dropWhile (fun c => decide (c ∈ s)), i.takeWhile (fun c => decide (c ∈ s)))

/-- Embedding of `nom::combinator::recognize`: run the parser and return the
consumed slice of the input. -/
def recognize {α : Type} (p : NomP α) : NomP (List Char) := fun i =>
  match p i with
  | none => none
  | some (rem, _) => some (rem, i.take (i.length - rem.length))

/-- Embedding of `nom::branch::alt` for two alternatives: first success wins. -/
def palt {α : Type} (p q : NomP α) : NomP α := fun i =>
  match p i with
  | some r => some r
  | none => q i

/-- Embedding of `nom::branch::alt` for three alternatives. -/
def palt3 {α : Type} (p q r : NomP α) : NomP α := palt p (palt q r)

/-- Embedding of `nom::sequence::pair` (also used for two-element `tuple`). -/
def ppair {α β : Type} (p : NomP α) (q : NomP β) : NomP (α × β) := fun i =>
  match p i with
  | none => none
  | some (i2, a) =>
    match q i2 with
    | none => none
    | some (i3, b) => some (i3, (a, b))

/-- Embedding of `nom::sequence::tuple` for three parsers. -/
def ptuple3 {α β γ : Type} (p : NomP α) (q : NomP β) (r : NomP γ) :
    NomP (α × β × γ) := fun i =>
  match ppair p (ppair q r) i with
  | none => none
  | some (i2, (a, b, c)) => some (i2, (a, b, c))

/-- Embedding of `nom::combinator::all_consuming`: succeed only if the parser
consumes the entire input. -/
def all_consuming {α : Type} (p : NomP α) : NomP α := fun i =>
  match p i with
  | some ([], a) => some ([], a)
  | _ => none

/-- Embedding of `nom::combinator::map`. -/
def pmap {α β : Type} (p : NomP α) (f : α → β) : NomP β := fun i =>
  match p i with
  | none => none
  | some (i2, a) => some (i2, f a)

/-- Embedding of `nom::combinator::map_res`: the closure's own failure fails
the parser. -/
def map_res {α β : Type} (p : NomP α) (f : α → Option β) : NomP β := fun i =>
  match p i with
  | none => none
  | some (i2, a) =>
    match f a with
    | none => none
    | some b => some (i2, b)

/-- Embedding of `nom::combinator::opt`: never fails. -/
def popt {α : Type} (p : NomP α) : NomP (Option α) := fun i =>
  match p i with
  | some (i2, a) => some (i2, some a)
  | none => some (i, none)

/-- Embedding of `nom::sequence::preceded`. -/
def preceded {α β : Type} (p : NomP α) (q : NomP β) : NomP β := fun i =>
  match p i with
  | none => none
  | some (i2, _) => q i2

/-- Embedding of `nom::sequence::terminated`. -/
def terminated {α β : Type} (p : NomP α) (q : NomP β) : NomP α := fun i =>
  match p i with
  | none => none
  | some (i2, a) =>
    match q i2 with
    | none => none
    | some (i3, _) => some (i3, a)

/-- Embedding of `nom::bytes::complete::is_not`: the longest nonempty prefix
containing no character of the set. -/
def is_not (s : List Char) : NomP (List Char) := fun i =>
  match i.takeWhile (fun c => !(decide (c ∈ s))) with
  | [] => none
  | taken => some (i.dropWhile (fun c => !(decide (c ∈ s))), taken)

/-- Characters recognised by nom's `space0`/`space1`: space and tab. -/
def spaceTabChars : List Char := [' ', '\t']

/-- Embedding of `nom::character::complete::space0`. -/
def space0 : NomP (List Char) := many0_one_of spaceTabChars

/-- Embedding of `nom::character::complete::space1`: like `space0` but the
match must be nonempty. -/
def space1 : NomP (List Char) := fun i =>
  match i.takeWhile (fun c => decide (c ∈ spaceTabChars)) with
  | [] => none
  | taken => some (i.dropWhile (fun c => decide (c ∈ spaceTabChars)), taken)

/-- Embedding of `nom::combinator::rest`: consume and return all remaining
input. -/
def prest : NomP (List Char) := fun i => some ([], i)

/-! ## Duration literal parser (`src/parse_duration.rs`) -/

/-- Embedding of `ParseError` in `parse_duration.rs` lines 14-19.
`UnrecognizedInput` carries the unconsumed input (embedded here as the whole
input handed to the failing parse); `BadInt` wraps `std`'s `ParseIntError`,
whose payload is irrelevant to the claims and is dropped. -/
inductive ParseError where
  | UnrecognizedInput (s : List Char)
  | BadInt
  | Overflow
deriving DecidableEq, Repr

/-- Embedding of the `Spec` enum in `parse_duration.rs` lines 62-68. -/
inductive Spec where
  | Seconds (u : Nat)
  | Minutes (u : Nat)
  | Hours (u : Nat)
  | Days (u : Nat)
  | Weeks (u : Nat)
deriving DecidableEq, Repr

/-- Nonzero leading digits accepted by `one_of("123456789")`. -/
def oneNineChars : List Char := ['1', '2', '3', '4', '5', '6', '7', '8', '9']

/-- Digits accepted by `one_of("0123456789")`. -/
def digitChars : List Char := ['0', '1', '2', '3', '4', '5', '6', '7', '8', '9']

/-- Unit characters accepted by `one_of("smhdw")`. -/
def unitChars : List Char := ['s', 'm', 'h', 'd', 'w']

/-- One more than `u64::MAX`. -/
def u64Size : Nat := 2 ^ 64

/-- Embedding of the digit alternative in `parse_spec` (`parse_duration.rs`
lines 72-75): a nonzero digit followed by any digits, or the single tag `0`. -/
def specDigits : NomP (List Char) :=
  palt (recognize (ppair (one_of oneNineChars) (many0_one_of digitChars))) (ptag ['0'])

/-- Numeric value of a digit string, most significant digit first. -/
def digitsToNat (s : List Char) : Nat :=
  s.foldl (fun acc c => acc * 10 + (c.toNat - 48)) 0

/-- Embedding of Rust's `str::parse::<u64>()` as used in `parse_spec` line 79.
The grammar guarantees the input is a nonempty run of ASCII digits; on such
input the Rust parse fails (with a `ParseIntError`, mapped to
`ParseError::BadInt`) exactly when the value exceeds `u64::MAX`. -/
def parseU64 (s : List Char) : Option Nat :=
  if s ≠ [] ∧ ∀ c ∈ s, c ∈ digitChars then
    if digitsToNat s < u64Size then some (digitsToNat s) else none
  else none

/-- Embedding of `parse_spec` (`parse_duration.rs` lines 70-89). -/
def parse_spec (s : List Char) : Except ParseError Spec :=
  match all_consuming (ppair specDigits (one_of unitChars)) s with
  | none => Except.error (ParseError.UnrecognizedInput s)
  | some (_, (num, c)) =>
    match parseU64 num with
    | none => Except.error ParseError.BadInt
    | some u =>
      match c with
      | 's' => Except.ok (Spec.Seconds u)
      | 'm' => Except.ok (Spec.Minutes u)
      | 'h' => Except.ok (Spec.Hours u)
      | 'd' => Except.ok (Spec.Days u)
      | 'w' => Except.ok (Spec.Weeks u)
      | _ => Except.ok (Spec.Seconds u) -- the `unreachable!` arm: `one_of("smhdw")` only yields the five characters above

/-- Embedding of `u64::checked_mul`. -/
def checked_mul (a b : Nat) : Option Nat :=
  if a * b < u64Size then some (a * b) else none

/-- Embedding of the `Spec::Seconds` arm of `TryFrom<Spec> for Duration`
(`parse_duration.rs` line 96): `Duration::from_secs` never fails; the
duration is modelled as its whole number of seconds. -/
def secondsTryFrom (u : Nat) : Option Nat := some u

/-- Embedding of the `Spec::Minutes` arm (`parse_duration.rs` lines 97-99). -/
def minutesTryFrom (u : Nat) : Option Nat := (checked_mul u 60).bind secondsTryFrom

/-- Embedding of the `Spec::Hours` arm (`parse_duration.rs` lines 100-102). -/
def hoursTryFrom (u : Nat) : Option Nat := (checked_mul u 60).bind minutesTryFrom

/-- Embedding of the `Spec::Days` arm (`parse_duration.rs` lines 103-105). -/
def daysTryFrom (u : Nat) : Option Nat := (checked_mul u 24).bind hoursTryFrom

/-- Embedding of the `Spec::Weeks` arm (`parse_duration.rs` lines 106-108). -/
def weeksTryFrom (u : Nat) : Option Nat := (checked_mul u 7).bind daysTryFrom

/-- Embedding of `TryFrom<Spec> for Duration` (`parse_duration.rs` lines
91-111); `none` models the `Overflow` error. -/
def durationTryFrom : Spec → Option Nat
  | Spec.Seconds u => secondsTryFrom u
  | Spec.Minutes u => minutesTryFrom u
  | Spec.Hours u => hoursTryFrom u
  | Spec.Days u => daysTryFrom u
  | Spec.Weeks u => weeksTryFrom u

/-- Embedding of `parse_duration` (`parse_duration.rs` lines 113-115); the
resulting `Duration` is modelled as its whole number of seconds. -/
def parse_duration (s : List Char) : Except ParseError Nat :=
  match parse_spec s with
  | Except.error e => Except.error e
  | Except.ok spec =>
    match durationTryFrom spec with
    | some d => Except.ok d
    | none => Except.error ParseError.Overflow

/-! ## IPv4 address parsing (`std::net::Ipv4Addr: FromStr`)

Used by the PlainText/Json resolvers (`body.parse()`), by the TXT record
decoding, and by the `Server` parse in `check_ip_opts.rs`. -/

/-- ASCII digit test. -/
def isAsciiDigit (c : Char) : Bool := decide (c ∈ digitChars)

/-- Embedding of one dotted-decimal octet as read by `std`'s IPv4 parser: a
run of one to three ASCII digits, no leading zero unless the octet is exactly
`0`, value at most 255. Returns the value and the unconsumed input. -/
def parseOctet (s : List Char) : Option (Nat × List Char) :=
  if s.takeWhile isAsciiDigit = [] then none
  else if (s.takeWhile isAsciiDigit).length > 1
      ∧ (s.takeWhile isAsciiDigit).headI = '0' then none
  else if (s.takeWhile isAsciiDigit).length ≤ 3
      ∧ digitsToNat (s.takeWhile isAsciiDigit) ≤ 255 then
    some (digitsToNat (s.takeWhile isAsciiDigit), s.dropWhile isAsciiDigit)
  else none

/-- Helper: a literal dot followed by an octet. -/
def parseDotOctet (s : List Char) : Option (Nat × List Char) :=
  match s with
  | c :: rest => if c = '.' then parseOctet rest else none
  | [] => none

/-- Embedding of `std::net::Ipv4Addr`'s `FromStr`: exactly four dotted-decimal
octets consuming the whole input. -/
def parseIpv4 (s : List Char) : Option Ipv4Addr :=
  (parseOctet s).bind (fun p1 =>
  (parseDotOctet p1.2).bind (fun p2 =>
  (parseDotOctet p2.2).bind (fun p3 =>
  (parseDotOctet p3.2).bind (fun p4 =>
  if p4.2 = [] then some ⟨p1.1, p2.1, p3.1, p4.1⟩ else none))))

/-! ## Service specification parser (`src/check_ip_opts.rs`) -/

/-- Scheme characters of a URL after the leading letter. -/
def isSchemeChar (c : Char) : Bool := c.isAlphanum || c = '+' || c = '-' || c = '.'

/-- Whitespace test used by the URL model below. -/
def notUrlWhitespace (c : Char) : Bool := !(c = ' ' || c = '\t' || c = '\n' || c = '\r')

/-- Modelled from the spec: `Url::parse` of the external `url` crate (not part
of this repository), as used by `fn url` in `check_ip_opts.rs` line 130 and by
the data-model requirement that an endpoint is a well-formed URL. The model
accepts a string with a nonempty scheme (a letter followed by
letters/digits/`+`/`-`/`.`) terminated by a colon and containing no whitespace,
and returns it unchanged (the crate's normalisation is not modelled). -/
def urlParse (s : List Char) : Option (List Char) :=
  match s with
  | [] => none
  | c :: rest =>
    if c.isAlpha = true
       ∧ ((c :: rest).takeWhile (fun x => decide (x ≠ ':'))).length < (c :: rest).length
       ∧ ((c :: rest).takeWhile (fun x => decide (x ≠ ':'))).all isSchemeChar = true
       ∧ (c :: rest).all notUrlWhitespace = true
    then some (c :: rest) else none

/-- Characters the host-name model accepts. -/
def isNameChar (c : Char) : Bool := c.isAlphanum || c = '.' || c = '-' || c = '_'

/-- Modelled from the spec: `Name::from_str` of the external trust-dns crate,
as used for the query name (`check_ip_opts.rs` line 150); a DNS-compliant host
name: nonempty, letters/digits/`.`/`-`/`_`. -/
def nameParse (s : List Char) : Option (List Char) :=
  if s ≠ [] ∧ s.all isNameChar = true then some s else none

/-- Embedding of Rust's `str::parse::<u16>()` for a port: a nonempty digit run
valued below 65536 (leading zeros permitted by the integer parser; the `+`
sign form is omitted). -/
def parsePort (s : List Char) : Option Nat :=
  if s ≠ [] ∧ s.all isAsciiDigit = true then
    if digitsToNat s < 65536 then some (digitsToNat s) else none
  else none

/-- Modelled from the spec: `std`'s `SocketAddr: FromStr` restricted to the
`ip:port` shape with an IPv4 address (IPv6 socket literals are omitted from
the model; the claims never exercise them). -/
def socketAddrParse (s : List Char) : Option (Ipv4Addr × Nat) :=
  match parseIpv4 (s.takeWhile (fun c => decide (c ≠ ':'))) with
  | none => none
  | some ip =>
    match s.dropWhile (fun c => decide (c ≠ ':')) with
    | ':' :: portPart =>
      match parsePort portPart with
      | some p => some (ip, p)
      | none => none
    | _ => none

/-- Embedding of the `Server` enum in `check_ip_opts.rs` lines 23-28 (IPv6
variants of the underlying address types are omitted from the model). -/
inductive Server where
  | Host (name : List Char)
  | Ip (ip : Ipv4Addr)
  | SocketAddr (ip : Ipv4Addr) (port : Nat)
deriving DecidableEq, Repr

/-- Embedding of `FromStr for Server` (`check_ip_opts.rs` lines 43-58): try a
socket address, then a bare IP, then a host name; first success wins. -/
def serverFromStr (s : List Char) : Option Server :=
  match socketAddrParse s with
  | some (ip, p) => some (Server.SocketAddr ip p)
  | none =>
    match parseIpv4 s with
    | some ip => some (Server.Ip ip)
    | none =>
      match nameParse s with
      | some n => some (Server.Host n)
      | none => none

/-- Embedding of `DnsRecordType` (`public_ip/src/lib.rs` lines 93-97). -/
inductive DnsRecordType where
  | A
  | TXT
deriving DecidableEq, Repr

/-- Embedding of `FromStr for DnsRecordType` (`public_ip/src/lib.rs` lines
99-109): exactly `A` or `TXT`, case-sensitive. -/
def dnsRecordTypeFromStr (s : List Char) : Option DnsRecordType :=
  if s = ['A'] then some DnsRecordType.A
  else if s = ['T', 'X', 'T'] then some DnsRecordType.TXT
  else none

/-- Embedding of the `CheckIpOpts` enum (`check_ip_opts.rs` lines 71-85); a
`Url` is modelled as the character list accepted by `urlParse`. -/
inductive CheckIpOpts where
  | PlainText (url : List Char)
  | Json (url : List Char) (key : List Char)
  | Dns (server : Server) (record_type : Option DnsRecordType) (name : List Char)
deriving DecidableEq, Repr

/-- Embedding of `fn url` (`check_ip_opts.rs` lines 129-131). -/
def url : NomP (List Char) := map_res prest urlParse

/-- Tag for the JSON alternative. -/
def jsonTagChars : List Char := ['j', 's', 'o', 'n', ':']

/-- Embedding of `fn json` (`check_ip_opts.rs` lines 133-138): the tag
`json:`, optional spaces, a nonempty non-whitespace key, mandatory spaces,
then a URL. -/
def json : NomP (List Char × List Char) :=
  preceded (terminated (ptag jsonTagChars) space0)
    (ppair (terminated (is_not spaceTabChars) space1) url)

/-- Embedding of `fn dns` (`check_ip_opts.rs` lines 140-152): `@`, a server
token, optional record type, then the query name. -/
def dns : NomP (Server × Option DnsRecordType × List Char) :=
  ptuple3
    (preceded (ptag ['@'])
      (terminated (map_res (is_not spaceTabChars) serverFromStr) space1))
    (popt (terminated (map_res (is_not spaceTabChars) dnsRecordTypeFromStr) space1))
    (map_res prest nameParse)

/-- Embedding of `fn ip_opts` (`check_ip_opts.rs` lines 114-127): the three
ordered alternatives, JSON first, then DNS, then plain URL, all consuming the
entire input. -/
def ip_opts : NomP CheckIpOpts :=
  all_consuming (palt3
    (pmap json (fun kv => CheckIpOpts.Json kv.2 kv.1))
    (pmap dns (fun t => CheckIpOpts.Dns t.1 t.2.1 t.2.2))
    (pmap url (fun u => CheckIpOpts.PlainText u)))

/-! ## Public-IP resolver (`public_ip/src/lib.rs`) -/

/-- Embedding of the `Error` enum in `public_ip/src/lib.rs` lines 22-30.
`HttpBadResponse` carries the response status (the source carries the whole
response and displays its status); the payloads of the other variants are
external-library error values and are dropped. -/
inductive Error where
  | Http
  | HttpBadResponse (status : Nat)
  | DnsProto
  | DnsClient
  | MissingResponse
  | ParseAddr
deriving DecidableEq, Repr

/-- Embedding of an HTTP response as the resolver observes it: numeric status
code and body text (reading the body is modelled as always succeeding). -/
structure HttpResponse where
  status : Nat
  body : List Char
deriving DecidableEq, Repr

/-- Embedding of `StatusCode::is_success`: 2xx. -/
def statusIsSuccess (s : Nat) : Bool := 200 ≤ s && s < 300

/-- Embedding of `fn get` (`public_ip/src/lib.rs` lines 213-222): pass a
success-status response through, otherwise `Error::HttpBadResponse`. The
transport itself having failed (`reqwest::Error`) is not modelled; it maps to
`Error::Http` before any of the logic embedded here runs. -/
def httpGet (r : HttpResponse) : Except Error HttpResponse :=
  if statusIsSuccess r.status then Except.ok r
  else Except.error (Error.HttpBadResponse r.status)

/-- Whitespace characters of Rust's `char::is_whitespace` (the Unicode
White_Space property), as trimmed by `str::trim_end`. -/
def rustWhitespaceChars : List Char :=
  [' ', '\t', '\n', '\r', '\x0b', '\x0c', '\u0085', ' ', ' ',
   ' ', ' ', ' ', ' ', ' ', ' ', ' ',
   ' ', ' ', ' ', ' ', ' ', ' ', ' ',
   ' ', '　']

/-- Embedding of `str::trim_end`: remove trailing whitespace only. -/
def trim_end (s : List Char) : List Char :=
  (s.reverse.dropWhile (fun c => decide (c ∈ rustWhitespaceChars))).reverse

/-- Embedding of the `Service::PlainText` arm of `Service::ipv4`
(`public_ip/src/lib.rs` lines 154-158), as a function of the HTTP response
the transport produced: `get(url)?`, then `body.trim_end().parse()?`. -/
def plainTextIpv4 (r : HttpResponse) : Except Error Ipv4Addr :=
  match httpGet r with
  | Except.error e => Except.error e
  | Except.ok res =>
    match parseIpv4 (trim_end res.body) with
    | some ip => Except.ok ip
    | none => Except.error Error.ParseAddr

/-- Embedding of the subset of `trust_dns_client::rr::RecordType` this program
touches: the two constructible types plus `CNAME` standing in for every other
record type a response can carry or the wildcard match arm can see. -/
inductive RecordType where
  | A
  | TXT
  | CNAME
deriving DecidableEq, Repr

/-- Embedding of `From<DnsRecordType> for RecordType`
(`public_ip/src/lib.rs` lines 111-118). -/
def dnsRecordTypeInto : DnsRecordType → RecordType
  | DnsRecordType.A => RecordType.A
  | DnsRecordType.TXT => RecordType.TXT

/-- Embedding of DNS record data (`RData`) as found in an answer record:
an A record's address, a TXT record's text payload (as rendered by
`TXT::to_string`), or a CNAME (standing in for any other data type). -/
inductive RData where
  | A (ip : Ipv4Addr)
  | TXT (txt : List Char)
  | CNAME (name : List Char)
deriving DecidableEq, Repr

/-- Embedding of `RData::into_a`: `Some` only for A data. -/
def into_a : RData → Option Ipv4Addr
  | RData.A ip => some ip
  | _ => none

/-- Embedding of `RData::into_txt`: `Some` only for TXT data. -/
def into_txt : RData → Option (List Char)
  | RData.TXT t => some t
  | _ => none

/-- Outcome of the DNS branch of `Service::ipv4`: an address, an `Error`, or
an abort of the process — `panics` embeds a `panic!`, including the ones
raised by `Option::expect`. -/
inductive DnsOutcome where
  | ok (ip : Ipv4Addr)
  | err (e : Error)
  | panics (msg : List Char)
deriving DecidableEq, Repr

/-- Message of `expect("expected A record")`. -/
def expectedARecordMsg : List Char := "expected A record".toList

/-- Message of `expect("expected TXT record")`. -/
def expectedTXTRecordMsg : List Char := "expected TXT record".toList

/-- Message of the wildcard arm's `panic!("{} not implemented", ..)`. -/
def notImplementedMsg : List Char := "not implemented".toList

/-- Embedding of the `Service::Dns` arm of `Service::ipv4`
(`public_ip/src/lib.rs` lines 168-196), as a function of the answer records
of a successfully transported response: take the first answer or
`Error::MissingResponse`; for an A query, `rdata.into_a().expect(..)`; for a
TXT query, `rdata.into_txt().expect(..).to_string().parse()?`; any other
query type hits the `panic!` arm. Transport errors (`DnsProto`/`DnsClient`)
happen before this logic and are not modelled here. -/
def dnsIpv4 (record_type : RecordType) (answers : List RData) : DnsOutcome :=
  match answers with
  | [] => DnsOutcome.err Error.MissingResponse
  | rdata :: _ =>
    match record_type with
    | RecordType.A =>
      match into_a rdata with
      | some ip => DnsOutcome.ok ip
      | none => DnsOutcome.panics expectedARecordMsg
    | RecordType.TXT =>
      match into_txt rdata with
      | some t =>
        match parseIpv4 t with
        | some ip => DnsOutcome.ok ip
        | none => DnsOutcome.err Error.ParseAddr
      | none => DnsOutcome.panics expectedTXTRecordMsg
    | RecordType.CNAME => DnsOutcome.panics notImplementedMsg

/-- Embedding of the `Service` enum (`public_ip/src/lib.rs` lines 120-133);
the Dns server endpoint is an IPv4 socket address. -/
inductive Service where
  | PlainText (url : List Char)
  | Json (url : List Char) (key : List Char)
  | Dns (server : Ipv4Addr × Nat) (record_type : RecordType) (name : List Char)
deriving DecidableEq, Repr

/-- Embedding of the constructor `Service::dns` (`public_ip/src/lib.rs` lines
144-150): the record type stored is the image of a `DnsRecordType`. -/
def Service.dnsCtor (server : Ipv4Addr × Nat) (rt : DnsRecordType)
    (name : List Char) : Service :=
  Service.Dns server (dnsRecordTypeInto rt) name

/-! ## Claims about the scheduler loop -/

/-- C1: in preflight scheduled mode, on every tick whose resolution succeeds,
the update client is not called when the resolved address equals
`lastKnownAddress` and is called exactly once with the new address otherwise;
in particular a resolver stub yielding A then A produces exactly one update
call, and A then B produces exactly two. -/
theorem C1_preflight_update_only_on_change :
    (∀ (schedule : Nat) (t : PreflightTick) (prev ip : Ipv4Addr),
        t.resolveRes = some ip →
        (preflightTick schedule t prev).updateCalls =
          (if ip = prev then [] else [ip]))
  ∧ (preflightRun 300
      [⟨some ⟨1, 2, 3, 4⟩, some ⟨0⟩⟩, ⟨some ⟨1, 2, 3, 4⟩, some ⟨0⟩⟩]
      initialPrevIp).2 = [⟨1, 2, 3, 4⟩]
  ∧ (preflightRun 300
      [⟨some ⟨1, 2, 3, 4⟩, some ⟨0⟩⟩, ⟨some ⟨5, 6, 7, 8⟩, some ⟨0⟩⟩]
      initialPrevIp).2 = [⟨1, 2, 3, 4⟩, ⟨5, 6, 7, 8⟩] := by
  refine ⟨?_, by decide, by decide⟩
  intro schedule t prev ip h
  by_cases hip : ip = prev
  · simp [preflightTick, update_preflight_schedule, h, hip]
  · simp only [preflightTick, update_preflight_schedule, h, if_neg hip]
    cases t.updateRes <;> simp [hip]

/-- Witness for C1 at a concrete tick. -/
theorem C1_witness :
    (PreflightTick.mk (some ⟨9, 9, 9, 9⟩) (some ⟨0⟩)).resolveRes = some ⟨9, 9, 9, 9⟩
  ∧ (preflightTick 120 (PreflightTick.mk (some ⟨9, 9, 9, 9⟩) (some ⟨0⟩))
      initialPrevIp).updateCalls =
      (if (⟨9, 9, 9, 9⟩ : Ipv4Addr) = initialPrevIp then [] else [⟨9, 9, 9, 9⟩]) :=
  ⟨rfl, C1_preflight_update_only_on_change.1 120 _ initialPrevIp ⟨9, 9, 9, 9⟩ rfl⟩

/-- C2 counterexample: with `lastKnownAddress = 1.2.3.4`, a tick resolving
`5.6.7.8` whose update call fails does invoke the update client with
`5.6.7.8`, but leaves `lastKnownAddress` at `1.2.3.4` rather than setting it
to `5.6.7.8`; a later tick resolving `5.6.7.8` again therefore calls the
update client a second time instead of skipping. -/
theorem C2_counterexample :
    (preflightTick 300 (PreflightTick.mk (some ⟨5, 6, 7, 8⟩) none)
      ⟨1, 2, 3, 4⟩).updateCalls = [⟨5, 6, 7, 8⟩]
  ∧ (preflightTick 300 (PreflightTick.mk (some ⟨5, 6, 7, 8⟩) none)
      ⟨1, 2, 3, 4⟩).prev_ip = ⟨1, 2, 3, 4⟩
  ∧ (preflightTick 300 (PreflightTick.mk (some ⟨5, 6, 7, 8⟩) none)
      ⟨1, 2, 3, 4⟩).prev_ip ≠ ⟨5, 6, 7, 8⟩
  ∧ (preflightRun 300
      [PreflightTick.mk (some ⟨5, 6, 7, 8⟩) none,
       PreflightTick.mk (some ⟨5, 6, 7, 8⟩) (some ⟨0⟩)]
      ⟨1, 2, 3, 4⟩).2 = [⟨5, 6, 7, 8⟩, ⟨5, 6, 7, 8⟩] := by
  decide

/-- C2 amended: in preflight scheduled mode, when resolution yields a new
address different from `lastKnownAddress` and the update call fails, the
update client is invoked once with the new address but `lastKnownAddress` is
left unchanged (assignment happens only after a successful update), the
failure is logged, and the backoff sleep `min(tickInterval, 60s)` is applied;
a later tick that resolves the same new address retries the update. -/
theorem C2_amended_update_failure_keeps_state (schedule : Nat)
    (prev ip : Ipv4Addr) (h : ip ≠ prev) :
    preflightTick schedule (PreflightTick.mk (some ip) none) prev =
      ⟨prev, [ip], min schedule 60⟩ := by
  simp [preflightTick, update_preflight_schedule, h]

/-- Witness for the amended C2 at a concrete tick. -/
theorem C2_amended_witness :
    (⟨5, 6, 7, 8⟩ : Ipv4Addr) ≠ ⟨1, 2, 3, 4⟩
  ∧ preflightTick 300 (PreflightTick.mk (some ⟨5, 6, 7, 8⟩) none) ⟨1, 2, 3, 4⟩ =
      ⟨⟨1, 2, 3, 4⟩, [⟨5, 6, 7, 8⟩], min 300 60⟩ :=
  ⟨by decide, C2_amended_update_failure_keeps_state 300 ⟨1, 2, 3, 4⟩ ⟨5, 6, 7, 8⟩ (by decide)⟩

/-- C3: a preflight tick whose resolution fails leaves `lastKnownAddress`
unchanged, for every prior state; and a failing tick followed by a successful
tick that resolves the previously-seen address makes no update call and keeps
the state, i.e. failure never resets the state to the unspecified address. -/
theorem C3_resolution_failure_preserves_state :
    (∀ (schedule : Nat) (t : PreflightTick) (prev : Ipv4Addr),
        t.resolveRes = none →
        (preflightTick schedule t prev).prev_ip = prev)
  ∧ (∀ (schedule : Nat) (prev : Ipv4Addr) (u1 u2 : Option DuckResponse),
        preflightRun schedule
          [PreflightTick.mk none u1, PreflightTick.mk (some prev) u2] prev =
          (prev, [])) := by
  constructor
  · intro schedule t prev h
    simp [preflightTick, update_preflight_schedule, h]
  · intro schedule prev u1 u2
    simp [preflightRun, preflightTick, update_preflight_schedule]

/-- Witness for C3 at a concrete state and tick. -/
theorem C3_witness :
    (PreflightTick.mk (none : Option Ipv4Addr) (some ⟨0⟩)).resolveRes = none
  ∧ (preflightTick 300 (PreflightTick.mk none (some ⟨0⟩)) ⟨1, 2, 3, 4⟩).prev_ip
      = ⟨1, 2, 3, 4⟩
  ∧ preflightRun 300
      [PreflightTick.mk none none, PreflightTick.mk (some ⟨1, 2, 3, 4⟩) none]
      ⟨1, 2, 3, 4⟩ = (⟨1, 2, 3, 4⟩, []) :=
  ⟨rfl, C3_resolution_failure_preserves_state.1 300 _ ⟨1, 2, 3, 4⟩ rfl,
    C3_resolution_failure_preserves_state.2 300 ⟨1, 2, 3, 4⟩ none none⟩

/-- C4: in scheduled mode the inter-tick sleep is `min(tickInterval, 60s)`
after a tick whose resolution failed, and the full `tickInterval` after a
successful tick (update performed, update skipped, or unconditional update
attempted); the backoff sleep never exceeds the configured interval. -/
theorem C4_sleep_durations :
    (∀ (schedule : Nat) (t : PreflightTick) (prev : Ipv4Addr),
        t.resolveRes = none →
        (preflightTick schedule t prev).sleep = min schedule 60)
  ∧ (∀ (schedule : Nat) (t : PreflightTick) (prev ip : Ipv4Addr),
        t.resolveRes = some ip → ip = prev →
        (preflightTick schedule t prev).sleep = schedule)
  ∧ (∀ (schedule : Nat) (t : PreflightTick) (prev ip : Ipv4Addr)
        (r : DuckResponse),
        t.resolveRes = some ip → ip ≠ prev → t.updateRes = some r →
        (preflightTick schedule t prev).sleep = schedule)
  ∧ (∀ (schedule : Nat) (u : Option DuckResponse),
        (unconditionalTick schedule u).sleep = schedule)
  ∧ (∀ schedule : Nat, min schedule 60 ≤ schedule) := by
  refine ⟨?_, ?_, ?_, ?_, fun schedule => min_le_left _ _⟩
  · intro schedule t prev h
    simp [preflightTick, update_preflight_schedule, h]
  · intro schedule t prev ip h hip
    simp [preflightTick, update_preflight_schedule, h, hip]
  · intro schedule t prev ip r h hip hu
    simp [preflightTick, update_preflight_schedule, h, hip, hu]
  · intro schedule u
    cases u <;> rfl

/-- Witness for C4 at concrete ticks. -/
theorem C4_witness :
    (PreflightTick.mk (none : Option Ipv4Addr) none).resolveRes = none
  ∧ (preflightTick 300 (PreflightTick.mk none none) ⟨1, 2, 3, 4⟩).sleep
      = min 300 60
  ∧ (preflightTick 300 (PreflightTick.mk (some ⟨1, 2, 3, 4⟩) none)
      ⟨1, 2, 3, 4⟩).sleep = 300
  ∧ (unconditionalTick 300 none).sleep = 300
  ∧ min 300 60 ≤ 300 :=
  ⟨rfl, C4_sleep_durations.1 300 _ ⟨1, 2, 3, 4⟩ rfl,
    C4_sleep_durations.2.1 300 _ ⟨1, 2, 3, 4⟩ ⟨1, 2, 3, 4⟩ rfl rfl,
    C4_sleep_durations.2.2.2.1 300 none,
    C4_sleep_durations.2.2.2.2 300⟩

/-- C5 counterexample: `lastKnownAddress` is initialised to `0.0.0.0`, but a
first successful tick whose resolver returns `0.0.0.0` itself is treated as
"no change": the update client is not called, contradicting the claim that
the first resolution always counts as changed for every returned address. -/
theorem C5_counterexample :
    (preflightRun 300 [PreflightTick.mk (some Ipv4Addr.UNSPECIFIED) (some ⟨0⟩)]
      initialPrevIp).2 = []
  ∧ (preflightRun 300 [PreflightTick.mk (some Ipv4Addr.UNSPECIFIED) (some ⟨0⟩)]
      initialPrevIp).2 ≠ [Ipv4Addr.UNSPECIFIED] := by
  decide

/-- C5 amended: `lastKnownAddress` starts as the unspecified address
`0.0.0.0`, and the first successful resolution triggers an update call for
every returned address other than `0.0.0.0` itself (a first resolution equal
to `0.0.0.0` is skipped as unchanged). -/
theorem C5_amended_first_resolution_updates :
    initialPrevIp = Ipv4Addr.UNSPECIFIED
  ∧ (∀ (schedule : Nat) (ip : Ipv4Addr) (u : Option DuckResponse),
      ip ≠ Ipv4Addr.UNSPECIFIED →
      (preflightTick schedule (PreflightTick.mk (some ip) u)
        initialPrevIp).updateCalls = [ip]) := by
  refine ⟨rfl, ?_⟩
  intro schedule ip u h
  have h2 : ip ≠ initialPrevIp := h
  simp only [preflightTick, update_preflight_schedule, if_neg h2]
  cases u <;> simp

/-- Witness for the amended C5 at a concrete first tick. -/
theorem C5_amended_witness :
    initialPrevIp = Ipv4Addr.UNSPECIFIED
  ∧ (⟨203, 0, 113, 7⟩ : Ipv4Addr) ≠ Ipv4Addr.UNSPECIFIED
  ∧ (preflightTick 300 (PreflightTick.mk (some ⟨203, 0, 113, 7⟩) (some ⟨0⟩))
      initialPrevIp).updateCalls = [⟨203, 0, 113, 7⟩] :=
  ⟨C5_amended_first_resolution_updates.1, by decide,
    C5_amended_first_resolution_updates.2 300 ⟨203, 0, 113, 7⟩ (some ⟨0⟩) (by decide)⟩

/-! ## Claims about the duration literal parser -/

/-- Seconds per unit, as the claim states the mapping. -/
def unitFactor (u : Char) : Nat :=
  if u = 's' then 1
  else if u = 'm' then 60
  else if u = 'h' then 3600
  else if u = 'd' then 86400
  else if u = 'w' then 604800
  else 0

/-- Spec constructor chosen by `parse_spec` for each unit character. -/
def mkSpec (u : Char) (v : Nat) : Spec :=
  if u = 's' then Spec.Seconds v
  else if u = 'm' then Spec.Minutes v
  else if u = 'h' then Spec.Hours v
  else if u = 'd' then Spec.Days v
  else Spec.Weeks v

/-- Grammar of the digit alternative of `parse_spec`: the literal `0`, or a
nonzero digit followed by digits. -/
def DigitsGrammar (ds : List Char) : Prop :=
  ds = ['0'] ∨ ∃ c cs, ds = c :: cs ∧ c ∈ oneNineChars ∧ ∀ x ∈ cs, x ∈ digitChars

theorem takeWhile_append_last {p : Char → Bool} (l : List Char) (u : Char)
    (h : ∀ x ∈ l, p x = true) (hu : p u = false) :
    (l ++ [u]).takeWhile p = l := by
  induction l with
  | nil => simp [hu]
  | cons c cs ih =>
    have hc : p c = true := h c (List.mem_cons_self c cs)
    simp only [List.cons_append, List.takeWhile_cons, hc, if_true]
    rw [ih (fun x hx => h x (List.mem_cons_of_mem c hx))]

theorem dropWhile_append_last {p : Char → Bool} (l : List Char) (u : Char)
    (h : ∀ x ∈ l, p x = true) (hu : p u = false) :
    (l ++ [u]).dropWhile p = [u] := by
  induction l with
  | nil => simp [List.dropWhile, hu]
  | cons c cs ih =>
    have hc : p c = true := h c (List.mem_cons_self c cs)
    simp only [List.cons_append, List.dropWhile_cons, hc, if_true]
    exact ih (fun x hx => h x (List.mem_cons_of_mem c hx))

theorem take_append_length (l r : List Char) : (l ++ r).take l.length = l := by
  induction l with
  | nil => simp
  | cons c cs ih => simp [ih]

theorem specDigits_eats (ds : List Char) (u : Char)
    (hds : DigitsGrammar ds) (hu : u ∈ unitChars) :
    specDigits (ds ++ [u]) = some ([u], ds) := by
  have hud : (fun c => decide (c ∈ digitChars)) u = false := by
    fin_cases hu <;> decide
  rcases hds with rfl | ⟨c, cs, rfl, hc, hcs⟩
  · have h09 : ¬ (('0' : Char) ∈ oneNineChars) := by decide
    simp [specDigits, palt, recognize, ppair, one_of, ptag, h09, List.isPrefixOf]
  · have h1 : one_of oneNineChars (c :: cs ++ [u]) = some (cs ++ [u], c) := by
      simp [one_of, hc]
    have h2 : many0_one_of digitChars (cs ++ [u]) = some ([u], cs) := by
      have hall : ∀ x ∈ cs, (fun c => decide (c ∈ digitChars)) x = true := by
        intro x hx
        exact decide_eq_true (hcs x hx)
      simp only [many0_one_of]
      rw [takeWhile_append_last cs u hall hud, dropWhile_append_last cs u hall hud]
    have h3 : ppair (one_of oneNineChars) (many0_one_of digitChars)
        (c :: cs ++ [u]) = some ([u], (c, cs)) := by
      simp only [ppair, h1, h2]
    have h4 : recognize (ppair (one_of oneNineChars) (many0_one_of digitChars))
        (c :: cs ++ [u]) = some ([u], c :: cs) := by
      simp only [recognize, h3]
      have hlen : (c :: cs ++ [u]).length - ([u] : List Char).length
          = (c :: cs).length := by simp
      rw [hlen, show (c :: cs ++ [u]) = (c :: cs) ++ [u] from by simp,
        take_append_length]
    simp only [specDigits, palt, h4]

theorem parse_spec_of_grammar (ds : List Char) (u : Char)
    (hds : DigitsGrammar ds) (hu : u ∈ unitChars)
    (hlt : digitsToNat ds < u64Size) :
    parse_spec (ds ++ [u]) = Except.ok (mkSpec u (digitsToNat ds)) := by
  have h1 := specDigits_eats ds u hds hu
  have h2 : one_of unitChars [u] = some ([], u) := by simp [one_of, hu]
  have h3 : all_consuming (ppair specDigits (one_of unitChars)) (ds ++ [u])
      = some ([], (ds, u)) := by
    simp only [all_consuming, ppair, h1, h2]
  have hne : ds ≠ [] := by
    rcases hds with rfl | ⟨c, cs, rfl, _, _⟩ <;> simp
  have hall : ∀ x ∈ ds, x ∈ digitChars := by
    rcases hds with rfl | ⟨c, cs, rfl, hc, hcs⟩
    · intro x hx
      simp at hx
      subst hx
      decide
    · intro x hx
      rcases List.mem_cons.mp hx with rfl | hx2
      · fin_cases hc <;> decide
      · exact hcs x hx2
  have h4 : parseU64 ds = some (digitsToNat ds) := by
    unfold parseU64
    rw [if_pos ⟨hne, hall⟩, if_pos hlt]
  simp only [parse_spec, h3, h4]
  fin_cases hu <;> simp [mkSpec]

theorem checked_mul_of_lt {a b : Nat} (h : a * b < u64Size) :
    checked_mul a b = some (a * b) := by
  simp [checked_mul, h]

theorem checked_mul_of_ge {a b : Nat} (h : u64Size ≤ a * b) :
    checked_mul a b = none := by
  simp [checked_mul, Nat.not_lt.mpr h]

theorem durationTryFrom_ok (u : Char) (v : Nat) (hu : u ∈ unitChars)
    (h : v * unitFactor u < u64Size) :
    durationTryFrom (mkSpec u v) = some (v * unitFactor u) := by
  fin_cases hu
  · simp only [unitFactor] at h ⊢
    simp [mkSpec, durationTryFrom, secondsTryFrom]
  · simp only [unitFactor] at h ⊢
    norm_num at h ⊢
    simp [mkSpec, durationTryFrom, minutesTryFrom, secondsTryFrom,
      checked_mul_of_lt h]
  · simp only [unitFactor] at h ⊢
    norm_num at h ⊢
    have e1 : v * 60 * 60 = v * 3600 := by ring
    have h1 : v * 60 < u64Size :=
      lt_of_le_of_lt (Nat.mul_le_mul (le_refl v) (by norm_num)) h
    have h2 : v * 60 * 60 < u64Size := by rw [e1]; exact h
    simp [mkSpec, durationTryFrom, hoursTryFrom, minutesTryFrom, secondsTryFrom,
      checked_mul_of_lt h1, checked_mul_of_lt h2, e1]
  · simp only [unitFactor] at h ⊢
    norm_num at h ⊢
    have e1 : v * 24 * 60 = v * 1440 := by ring
    have e2 : v * 1440 * 60 = v * 86400 := by ring
    have h1 : v * 24 < u64Size :=
      lt_of_le_of_lt (Nat.mul_le_mul (le_refl v) (by norm_num)) h
    have h2 : v * 24 * 60 < u64Size := by
      rw [e1]
      exact lt_of_le_of_lt (Nat.mul_le_mul (le_refl v) (by norm_num)) h
    have h3 : v * 1440 * 60 < u64Size := by rw [e2]; exact h
    simp [mkSpec, durationTryFrom, daysTryFrom, hoursTryFrom, minutesTryFrom,
      secondsTryFrom, checked_mul_of_lt h1, checked_mul_of_lt h2,
      checked_mul_of_lt h3, e1, e2]
  · simp only [unitFactor] at h ⊢
    norm_num at h ⊢
    have e1 : v * 7 * 24 = v * 168 := by ring
    have e2 : v * 168 * 60 = v * 10080 := by ring
    have e3 : v * 10080 * 60 = v * 604800 := by ring
    have h1 : v * 7 < u64Size :=
      lt_of_le_of_lt (Nat.mul_le_mul (le_refl v) (by norm_num)) h
    have h2 : v * 7 * 24 < u64Size := by
      rw [e1]
      exact lt_of_le_of_lt (Nat.mul_le_mul (le_refl v) (by norm_num)) h
    have h3 : v * 168 * 60 < u64Size := by
      rw [e2]
      exact lt_of_le_of_lt (Nat.mul_le_mul (le_refl v) (by norm_num)) h
    have h4 : v * 10080 * 60 < u64Size := by rw [e3]; exact h
    simp [mkSpec, durationTryFrom, weeksTryFrom, daysTryFrom, hoursTryFrom,
      minutesTryFrom, secondsTryFrom, checked_mul_of_lt h1, checked_mul_of_lt h2,
      checked_mul_of_lt h3, checked_mul_of_lt h4, e1, e2, e3]

theorem durationTryFrom_overflow (u : Char) (v : Nat) (hu : u ∈ unitChars)
    (hv : v < u64Size) (h : u64Size ≤ v * unitFactor u) :
    durationTryFrom (mkSpec u v) = none := by
  fin_cases hu
  · exfalso
    simp only [unitFactor] at h
    norm_num at h
    omega
  · simp only [unitFactor] at h
    norm_num at h
    simp [mkSpec, durationTryFrom, minutesTryFrom, checked_mul_of_ge h]
  · simp only [unitFactor] at h
    norm_num at h
    by_cases h1 : v * 60 < u64Size
    · have h2 : u64Size ≤ v * 60 * 60 := by
        have e1 : v * 60 * 60 = v * 3600 := by ring
        rw [e1]
        exact h
      simp [mkSpec, durationTryFrom, hoursTryFrom, minutesTryFrom,
        checked_mul_of_lt h1, checked_mul_of_ge h2]
    · simp [mkSpec, durationTryFrom, hoursTryFrom,
        checked_mul_of_ge (Nat.le_of_not_lt h1)]
  · simp only [unitFactor] at h
    norm_num at h
    by_cases h1 : v * 24 < u64Size
    · by_cases h2 : v * 24 * 60 < u64Size
      · have h3 : u64Size ≤ v * 24 * 60 * 60 := by
          have e1 : v * 24 * 60 * 60 = v * 86400 := by ring
          rw [e1]
          exact h
        simp [mkSpec, durationTryFrom, daysTryFrom, hoursTryFrom, minutesTryFrom,
          checked_mul_of_lt h1, checked_mul_of_lt h2, checked_mul_of_ge h3]
      · simp [mkSpec, durationTryFrom, daysTryFrom, hoursTryFrom,
          checked_mul_of_lt h1, checked_mul_of_ge (Nat.le_of_not_lt h2)]
    · simp [mkSpec, durationTryFrom, daysTryFrom,
        checked_mul_of_ge (Nat.le_of_not_lt h1)]
  · simp only [unitFactor] at h
    norm_num at h
    by_cases h1 : v * 7 < u64Size
    · by_cases h2 : v * 7 * 24 < u64Size
      · by_cases h3 : v * 7 * 24 * 60 < u64Size
        · have h4 : u64Size ≤ v * 7 * 24 * 60 * 60 := by
            have e1 : v * 7 * 24 * 60 * 60 = v * 604800 := by ring
            rw [e1]
            exact h
          simp [mkSpec, durationTryFrom, weeksTryFrom, daysTryFrom, hoursTryFrom,
            minutesTryFrom, checked_mul_of_lt h1, checked_mul_of_lt h2,
            checked_mul_of_lt h3, checked_mul_of_ge h4]
        · simp [mkSpec, durationTryFrom, weeksTryFrom, daysTryFrom, hoursTryFrom,
            checked_mul_of_lt h1, checked_mul_of_lt h2,
            checked_mul_of_ge (Nat.le_of_not_lt h3)]
      · simp [mkSpec, durationTryFrom, weeksTryFrom, daysTryFrom,
          checked_mul_of_lt h1, checked_mul_of_ge (Nat.le_of_not_lt h2)]
    · simp [mkSpec, durationTryFrom, weeksTryFrom,
        checked_mul_of_ge (Nat.le_of_not_lt h1)]

instance {ε α : Type} [DecidableEq ε] [DecidableEq α] :
    DecidableEq (Except ε α) := fun a b =>
  match a, b with
  | Except.ok x, Except.ok y =>
    if h : x = y then isTrue (by rw [h])
    else isFalse (by intro hc; cases hc; exact h rfl)
  | Except.error x, Except.error y =>
    if h : x = y then isTrue (by rw [h])
    else isFalse (by intro hc; cases hc; exact h rfl)
  | Except.ok _, Except.error _ => isFalse (by intro hc; cases hc)
  | Except.error _, Except.ok _ => isFalse (by intro hc; cases hc)

/-- C7: `parse_duration` maps every in-range literal `<digits><unit>` with
unit in s/m/h/d/w to digits times 1/60/3600/86400/604800 seconds (so `1s`,
`5m`, `12h`, `2d`, `4w` give 1, 300, 43200, 172800, 2419200 seconds), and
rejects a digit string with a leading zero unless the literal is exactly `0`. -/
theorem C7_duration_literal_mapping :
    (∀ (ds : List Char) (u : Char), DigitsGrammar ds → u ∈ unitChars →
      digitsToNat ds * unitFactor u < u64Size →
      parse_duration (ds ++ [u]) = Except.ok (digitsToNat ds * unitFactor u))
  ∧ parse_duration ("1s".toList) = Except.ok 1
  ∧ parse_duration ("5m".toList) = Except.ok 300
  ∧ parse_duration ("12h".toList) = Except.ok 43200
  ∧ parse_duration ("2d".toList) = Except.ok 172800
  ∧ parse_duration ("4w".toList) = Except.ok 2419200
  ∧ (∀ (d : Char) (rest : List Char) (u : Char), d ∈ digitChars →
      parse_duration ('0' :: d :: rest ++ [u]) =
        Except.error (ParseError.UnrecognizedInput ('0' :: d :: rest ++ [u]))) := by
  refine ⟨?_, by decide, by decide, by decide, by decide, by decide, ?_⟩
  · intro ds u hds hu hval
    have hf : 1 ≤ unitFactor u := by fin_cases hu <;> decide
    have hlt : digitsToNat ds < u64Size :=
      calc digitsToNat ds = digitsToNat ds * 1 := (Nat.mul_one _).symm
        _ ≤ digitsToNat ds * unitFactor u := Nat.mul_le_mul (le_refl _) hf
        _ < u64Size := hval
    simp only [parse_duration, parse_spec_of_grammar ds u hds hu hlt,
      durationTryFrom_ok u (digitsToNat ds) hu hval]
  · intro d rest u hd
    have h9 : ¬ (('0' : Char) ∈ oneNineChars) := by decide
    have hdu : ¬ (d ∈ unitChars) := by fin_cases hd <;> decide
    have h1 : specDigits ('0' :: d :: rest ++ [u])
        = some (d :: rest ++ [u], ['0']) := by
      simp [specDigits, palt, recognize, ppair, one_of, ptag, h9, List.isPrefixOf]
    have h2 : one_of unitChars (d :: rest ++ [u]) = none := by
      simp [one_of, hdu]
    have h3 : all_consuming (ppair specDigits (one_of unitChars))
        ('0' :: d :: rest ++ [u]) = none := by
      simp only [all_consuming, ppair, h1, h2]
    simp only [parse_duration, parse_spec, h3]

/-- Witness for C7 at the literal `5m` and the leading-zero literal `01s`. -/
theorem C7_witness :
    DigitsGrammar ['5']
  ∧ 'm' ∈ unitChars
  ∧ digitsToNat ['5'] * unitFactor 'm' < u64Size
  ∧ parse_duration (['5'] ++ ['m']) = Except.ok (digitsToNat ['5'] * unitFactor 'm')
  ∧ parse_duration ('0' :: '1' :: [] ++ ['s']) =
      Except.error (ParseError.UnrecognizedInput ('0' :: '1' :: [] ++ ['s'])) :=
  ⟨Or.inr ⟨'5', [], rfl, by decide, by decide⟩, by decide, by decide,
    C7_duration_literal_mapping.1 ['5'] 'm'
      (Or.inr ⟨'5', [], rfl, by decide, by decide⟩) (by decide) (by decide),
    C7_duration_literal_mapping.2.2.2.2.2.2 '1' [] 's' (by decide)⟩

/-- C8: every in-grammar literal whose digits fit in `u64` but whose
unit-to-seconds conversion exceeds `u64::MAX` seconds (the representable
range of the duration) parses to the `Overflow` error, and `Overflow` is a
variant distinct from every `UnrecognizedInput`. -/
theorem C8_overflow_distinct :
    (∀ (ds : List Char) (u : Char), DigitsGrammar ds → u ∈ unitChars →
      digitsToNat ds < u64Size → u64Size ≤ digitsToNat ds * unitFactor u →
      parse_duration (ds ++ [u]) = Except.error ParseError.Overflow)
  ∧ (∀ s : List Char, ParseError.Overflow ≠ ParseError.UnrecognizedInput s) := by
  constructor
  · intro ds u hds hu hv h
    simp only [parse_duration, parse_spec_of_grammar ds u hds hu hv,
      durationTryFrom_overflow u (digitsToNat ds) hu hv h]
  · intro s hcontra
    exact ParseError.noConfusion hcontra

/-- Witness for C8 at the literal `400000000000000000m`, whose value in
minutes fits `u64` but whose seconds value does not. -/
theorem C8_witness :
    DigitsGrammar ('4' :: List.replicate 17 '0')
  ∧ 'm' ∈ unitChars
  ∧ digitsToNat ('4' :: List.replicate 17 '0') < u64Size
  ∧ u64Size ≤ digitsToNat ('4' :: List.replicate 17 '0') * unitFactor 'm'
  ∧ parse_duration (('4' :: List.replicate 17 '0') ++ ['m']) =
      Except.error ParseError.Overflow :=
  ⟨Or.inr ⟨'4', List.replicate 17 '0', rfl, by decide, by decide⟩,
    by decide, by decide, by decide,
    C8_overflow_distinct.1 ('4' :: List.replicate 17 '0') 'm'
      (Or.inr ⟨'4', List.replicate 17 '0', rfl, by decide, by decide⟩)
      (by decide) (by decide) (by decide)⟩

/-! ## Claims about the service specification parser -/

/-- Embedding of `FromStr for CheckIpOpts` (`check_ip_opts.rs` lines 103-112):
run `ip_opts` and keep the produced value. -/
def checkIpOptsFromStr (s : List Char) : Option CheckIpOpts :=
  match ip_opts s with
  | some (_, opts) => some opts
  | none => none

theorem ptag_self_append (t r : List Char) : ptag t (t ++ r) = some (r, t) := by
  have h1 : t.isPrefixOf (t ++ r) = true := by
    induction t with
    | nil => simp [List.isPrefixOf]
    | cons c cs ih => simp [List.isPrefixOf, ih]
  have h2 : (t ++ r).drop t.length = r := by
    induction t with
    | nil => simp
    | cons c cs ih => simp [ih]
  simp [ptag, h1, h2]

theorem takeWhile_append_stop {p : Char → Bool} (l : List Char) (c : Char)
    (t : List Char) (h : ∀ x ∈ l, p x = true) (hc : p c = false) :
    (l ++ c :: t).takeWhile p = l := by
  induction l with
  | nil => simp [hc]
  | cons a as ih =>
    have ha : p a = true := h a (List.mem_cons_self a as)
    simp only [List.cons_append, List.takeWhile_cons, ha, if_true]
    rw [ih (fun x hx => h x (List.mem_cons_of_mem a hx))]

theorem dropWhile_append_stop {p : Char → Bool} (l : List Char) (c : Char)
    (t : List Char) (h : ∀ x ∈ l, p x = true) (hc : p c = false) :
    (l ++ c :: t).dropWhile p = c :: t := by
  induction l with
  | nil => simp [List.dropWhile, hc]
  | cons a as ih =>
    have ha : p a = true := h a (List.mem_cons_self a as)
    simp only [List.cons_append, List.dropWhile_cons, ha, if_true]
    exact ih (fun x hx => h x (List.mem_cons_of_mem a hx))

theorem urlParse_accepts {u r : List Char} (h : urlParse u = some r) :
    r = u ∧ u ≠ [] ∧ ∀ x ∈ u, ¬ x ∈ spaceTabChars := by
  match u with
  | [] => simp [urlParse] at h
  | c :: rest =>
    simp only [urlParse] at h
    by_cases hp : c.isAlpha = true
       ∧ ((c :: rest).takeWhile (fun x => decide (x ≠ ':'))).length < (c :: rest).length
       ∧ ((c :: rest).takeWhile (fun x => decide (x ≠ ':'))).all isSchemeChar = true
       ∧ (c :: rest).all notUrlWhitespace = true
    · rw [if_pos hp] at h
      obtain ⟨-, -, -, hws⟩ := hp
      refine ⟨(Option.some.inj h).symm, by simp, ?_⟩
      intro x hx hmem
      have hxw := List.all_eq_true.mp hws x hx
      fin_cases hmem <;> simp [notUrlWhitespace] at hxw
    · rw [if_neg hp] at h
      cases h

theorem space0_cons_nospace (a : Char) (l : List Char)
    (ha : ¬ a ∈ spaceTabChars) :
    space0 (a :: l) = some (a :: l, []) := by
  have h2 : decide (a ∈ spaceTabChars) = false := by simp [ha]
  simp [space0, many0_one_of, List.takeWhile_cons, List.dropWhile_cons, h2]

theorem space0_space_cons (a : Char) (l : List Char)
    (ha : ¬ a ∈ spaceTabChars) :
    space0 (' ' :: a :: l) = some (a :: l, [' ']) := by
  have h1 : decide ((' ' : Char) ∈ spaceTabChars) = true := by decide
  have h2 : decide (a ∈ spaceTabChars) = false := by simp [ha]
  simp [space0, many0_one_of, List.takeWhile_cons, List.dropWhile_cons, h1, h2]

theorem space1_cons_nospace (d : Char) (l : List Char)
    (hd : ¬ d ∈ spaceTabChars) :
    space1 (' ' :: d :: l) = some (d :: l, [' ']) := by
  have h1 : decide ((' ' : Char) ∈ spaceTabChars) = true := by decide
  have h2 : decide (d ∈ spaceTabChars) = false := by simp [hd]
  simp [space1, List.takeWhile_cons, List.dropWhile_cons, h1, h2]

theorem is_not_take (k : List Char) (c : Char) (t : List Char) (hk : k ≠ [])
    (hkw : ∀ x ∈ k, ¬ x ∈ spaceTabChars) (hc : c ∈ spaceTabChars) :
    is_not spaceTabChars (k ++ c :: t) = some (c :: t, k) := by
  have hall : ∀ x ∈ k, (fun x => !(decide (x ∈ spaceTabChars))) x = true := by
    intro x hx
    simp [hkw x hx]
  have hcf : (fun x => !(decide (x ∈ spaceTabChars))) c = false := by simp [hc]
  cases k with
  | nil => exact absurd rfl hk
  | cons a as =>
    have ht := takeWhile_append_stop (a :: as) c t hall hcf
    have hd := dropWhile_append_stop (a :: as) c t hall hcf
    simp only [is_not, ht, hd]

theorem json_parses (k u : List Char) (hk : k ≠ [])
    (hkw : ∀ x ∈ k, ¬ x ∈ spaceTabChars) (hu : urlParse u = some u) :
    json (jsonTagChars ++ (k ++ (' ' :: u))) = some ([], (k, u))
  ∧ json (jsonTagChars ++ (' ' :: (k ++ (' ' :: u)))) = some ([], (k, u)) := by
  obtain ⟨-, hune, huw⟩ := urlParse_accepts hu
  obtain ⟨a, as, rfl⟩ : ∃ a as, k = a :: as := by
    cases k with
    | nil => exact absurd rfl hk
    | cons a as => exact ⟨a, as, rfl⟩
  obtain ⟨d, u2, rfl⟩ : ∃ d u2, u = d :: u2 := by
    cases u with
    | nil => exact absurd rfl hune
    | cons d u2 => exact ⟨d, u2, rfl⟩
  have ha : ¬ a ∈ spaceTabChars := hkw a (List.mem_cons_self a as)
  have hd : ¬ d ∈ spaceTabChars := huw d (List.mem_cons_self d u2)
  have hsp : (' ' : Char) ∈ spaceTabChars := by decide
  have hinner : ppair (terminated (is_not spaceTabChars) space1) url
      ((a :: as) ++ ' ' :: (d :: u2)) = some ([], (a :: as, d :: u2)) := by
    have h5 := is_not_take (a :: as) ' ' (d :: u2) (by simp) hkw hsp
    have h6 := space1_cons_nospace d u2 hd
    have h7 : url (d :: u2) = some ([], d :: u2) := by
      simp [url, map_res, prest, hu]
    simp only [ppair, terminated, h5, h6, h7]
  constructor
  · have hP : terminated (ptag jsonTagChars) space0
        (jsonTagChars ++ ((a :: as) ++ ' ' :: (d :: u2)))
        = some ((a :: as) ++ ' ' :: (d :: u2), jsonTagChars) := by
      have h1 := ptag_self_append jsonTagChars ((a :: as) ++ ' ' :: (d :: u2))
      have h2 : space0 ((a :: as) ++ ' ' :: (d :: u2))
          = some ((a :: as) ++ ' ' :: (d :: u2), []) := by
        have h3 := space0_cons_nospace a (as ++ ' ' :: (d :: u2)) ha
        simpa using h3
      simp only [terminated, h1, h2]
    simp only [json, preceded, hP, hinner]
  · have hP : terminated (ptag jsonTagChars) space0
        (jsonTagChars ++ (' ' :: ((a :: as) ++ ' ' :: (d :: u2))))
        = some ((a :: as) ++ ' ' :: (d :: u2), jsonTagChars) := by
      have h1 := ptag_self_append jsonTagChars
        (' ' :: ((a :: as) ++ ' ' :: (d :: u2)))
      have h2 : space0 (' ' :: ((a :: as) ++ ' ' :: (d :: u2)))
          = some ((a :: as) ++ ' ' :: (d :: u2), [' ']) := by
        have h3 := space0_space_cons a (as ++ ' ' :: (d :: u2)) ha
        simpa using h3
      simp only [terminated, h1, h2]
    simp only [json, preceded, hP, hinner]

/-- C6 counterexample: for the key `k = ""` (an empty string) and the
endpoint `u = "http://example.com/"`, the input `"json:" + k + " " + u`
does not parse to the Json descriptor with key `k` and endpoint `u`,
refuting the claim quantified over all strings `k`. -/
theorem C6_counterexample :
    checkIpOptsFromStr ("json: http://example.com/".toList)
      ≠ some (CheckIpOpts.Json ("http://example.com/".toList) []) := by
  decide

/-- C6 amended: for every nonempty key `k` containing no space or tab and
every endpoint string `u` the URL parser accepts, both `"json:" + k + " " + u`
and `"json: " + k + " " + u` parse to the Json descriptor with key `k` and
endpoint `u`. -/
theorem C6_amended_json_descriptor (k u : List Char) (hk : k ≠ [])
    (hkw : ∀ x ∈ k, ¬ x ∈ spaceTabChars) (hu : urlParse u = some u) :
    checkIpOptsFromStr (jsonTagChars ++ k ++ [' '] ++ u) =
      some (CheckIpOpts.Json u k)
  ∧ checkIpOptsFromStr (jsonTagChars ++ [' '] ++ k ++ [' '] ++ u) =
      some (CheckIpOpts.Json u k) := by
  obtain ⟨hj1, hj2⟩ := json_parses k u hk hkw hu
  constructor
  · have e1 : jsonTagChars ++ k ++ [' '] ++ u
        = jsonTagChars ++ (k ++ (' ' :: u)) := by
      simp [List.append_assoc]
    rw [e1]
    simp only [checkIpOptsFromStr, ip_opts, all_consuming, palt3, palt, pmap, hj1]
  · have e2 : jsonTagChars ++ [' '] ++ k ++ [' '] ++ u
        = jsonTagChars ++ (' ' :: (k ++ (' ' :: u))) := by
      simp [List.append_assoc]
    rw [e2]
    simp only [checkIpOptsFromStr, ip_opts, all_consuming, palt3, palt, pmap, hj2]

/-- Witness for the amended C6 at the repository's own test input
`json:ip http://example.com/`. -/
theorem C6_amended_witness :
    (['i', 'p'] : List Char) ≠ []
  ∧ (∀ x ∈ (['i', 'p'] : List Char), ¬ x ∈ spaceTabChars)
  ∧ urlParse ("http://example.com/".toList) = some ("http://example.com/".toList)
  ∧ checkIpOptsFromStr
      (jsonTagChars ++ ['i', 'p'] ++ [' '] ++ "http://example.com/".toList)
      = some (CheckIpOpts.Json ("http://example.com/".toList) ['i', 'p']) :=
  ⟨by decide, by decide, by decide,
    (C6_amended_json_descriptor ['i', 'p'] ("http://example.com/".toList)
      (by decide) (by decide) (by decide)).1⟩

/-! ## Claims about the PlainText resolver -/

theorem getLast?_append_right (l r : List Char) (h : r ≠ []) :
    (l ++ r).getLast? = r.getLast? := by
  rw [List.getLast?_append]
  cases hr : r.getLast? with
  | none => exact absurd (by simpa using hr) h
  | some x => rfl

theorem getLast?_mem_of_eq {l : List Char} {a : Char}
    (h : l.getLast? = some a) : a ∈ l := by
  obtain ⟨h2, rfl⟩ := List.mem_getLast?_eq_getLast (l := l) (x := a) h
  exact List.getLast_mem h2

theorem dropWhile_append_all {p : Char → Bool} (l r : List Char)
    (h : ∀ x ∈ l, p x = true) : (l ++ r).dropWhile p = r.dropWhile p := by
  induction l with
  | nil => simp
  | cons a as ih =>
    have ha : p a = true := h a (List.mem_cons_self a as)
    simp only [List.cons_append, List.dropWhile_cons, ha, if_true]
    exact ih (fun x hx => h x (List.mem_cons_of_mem a hx))

theorem trim_end_append_ws (s ws : List Char)
    (hws : ∀ x ∈ ws, x ∈ rustWhitespaceChars) :
    trim_end (s ++ ws) = trim_end s := by
  unfold trim_end
  rw [List.reverse_append]
  rw [dropWhile_append_all ws.reverse s.reverse]
  intro x hx
  simp only [List.mem_reverse] at hx
  simp [hws x hx]

theorem trim_end_of_last_not_ws {s : List Char} {c : Char}
    (h : s.getLast? = some c) (hc : decide (c ∈ rustWhitespaceChars) = false) :
    trim_end s = s := by
  have hh : s.reverse.head? = some c := by rw [List.head?_reverse]; exact h
  cases hrev : s.reverse with
  | nil => rw [hrev] at hh; cases hh
  | cons x xs =>
    rw [hrev] at hh
    injection hh with hx
    subst hx
    unfold trim_end
    rw [hrev, List.dropWhile_cons, hc]
    simp only [Bool.false_eq_true, if_false]
    rw [← hrev, List.reverse_reverse]

theorem parseOctet_split {s : List Char} {v : Nat} {rest : List Char}
    (h : parseOctet s = some (v, rest)) :
    ∃ ds, ds ≠ [] ∧ (∀ x ∈ ds, isAsciiDigit x = true) ∧ s = ds ++ rest := by
  unfold parseOctet at h
  by_cases h1 : s.takeWhile isAsciiDigit = []
  · rw [if_pos h1] at h; cases h
  · rw [if_neg h1] at h
    by_cases h2 : (s.takeWhile isAsciiDigit).length > 1
        ∧ (s.takeWhile isAsciiDigit).headI = '0'
    · rw [if_pos h2] at h; cases h
    · rw [if_neg h2] at h
      by_cases h3 : (s.takeWhile isAsciiDigit).length ≤ 3
          ∧ digitsToNat (s.takeWhile isAsciiDigit) ≤ 255
      · rw [if_pos h3] at h
        injection h with h5
        have hrest : rest = s.dropWhile isAsciiDigit := (congrArg Prod.snd h5).symm
        refine ⟨s.takeWhile isAsciiDigit, h1, ?_, ?_⟩
        · intro x hx
          exact List.mem_takeWhile_imp hx
        · rw [hrest]
          exact (List.takeWhile_append_dropWhile isAsciiDigit s).symm
      · rw [if_neg h3] at h; cases h

theorem parseDotOctet_split {s : List Char} {v : Nat} {rest : List Char}
    (h : parseDotOctet s = some (v, rest)) :
    ∃ t, s = '.' :: t ∧ parseOctet t = some (v, rest) := by
  cases s with
  | nil => cases h
  | cons c t =>
    simp only [parseDotOctet] at h
    by_cases hc : c = '.'
    · subst hc
      rw [if_pos rfl] at h
      exact ⟨t, rfl, h⟩
    · rw [if_neg hc] at h
      cases h

theorem last_digit_of_parseIpv4 {s : List Char} {ip : Ipv4Addr}
    (h : parseIpv4 s = some ip) :
    ∃ c, s.getLast? = some c ∧ isAsciiDigit c = true := by
  simp only [parseIpv4] at h
  cases h1 : parseOctet s with
  | none => rw [h1] at h; cases h
  | some p1 =>
  obtain ⟨a, r1⟩ := p1
  rw [h1] at h
  simp only [Option.bind] at h
  cases h2 : parseDotOctet r1 with
  | none => rw [h2] at h; cases h
  | some p2 =>
  obtain ⟨b, r2⟩ := p2
  rw [h2] at h
  simp only [Option.bind] at h
  cases h3 : parseDotOctet r2 with
  | none => rw [h3] at h; cases h
  | some p3 =>
  obtain ⟨c0, r3⟩ := p3
  rw [h3] at h
  simp only [Option.bind] at h
  cases h4 : parseDotOctet r3 with
  | none => rw [h4] at h; cases h
  | some p4 =>
  obtain ⟨d0, r4⟩ := p4
  rw [h4] at h
  simp only [Option.bind] at h
  cases r4 with
  | cons x xs => simp at h
  | nil =>
  obtain ⟨t3, ht3, hoct4⟩ := parseDotOctet_split h4
  obtain ⟨ds4, hne4, hdig4, hsplit4⟩ := parseOctet_split hoct4
  obtain ⟨t2, ht2, hoct3⟩ := parseDotOctet_split h3
  obtain ⟨ds3, hne3, hdig3, hsplit3⟩ := parseOctet_split hoct3
  obtain ⟨t1, ht1, hoct2⟩ := parseDotOctet_split h2
  obtain ⟨ds2, hne2, hdig2, hsplit2⟩ := parseOctet_split hoct2
  obtain ⟨ds1, hne1, hdig1, hsplit1⟩ := parseOctet_split h1
  have hds4 : t3 = ds4 := by simpa using hsplit4
  obtain ⟨cl, hcl⟩ : ∃ cl, ds4.getLast? = some cl := by
    cases hgl : ds4.getLast? with
    | none => exact absurd (by simpa using hgl) hne4
    | some x => exact ⟨x, rfl⟩
  refine ⟨cl, ?_, hdig4 cl (getLast?_mem_of_eq hcl)⟩
  rw [hsplit1, ht1, hsplit2, ht2, hsplit3, ht3, hds4]
  rw [getLast?_append_right ds1 _ (by simp)]
  rw [show ('.' :: (ds2 ++ '.' :: (ds3 ++ '.' :: ds4)))
      = ['.'] ++ (ds2 ++ '.' :: (ds3 ++ '.' :: ds4)) from rfl]
  rw [getLast?_append_right ['.'] _ (by simp)]
  rw [getLast?_append_right ds2 _ (by simp)]
  rw [show ('.' :: (ds3 ++ '.' :: ds4)) = ['.'] ++ (ds3 ++ '.' :: ds4) from rfl]
  rw [getLast?_append_right ['.'] _ (by simp)]
  rw [getLast?_append_right ds3 _ (by simp)]
  rw [show ('.' :: ds4) = ['.'] ++ ds4 from rfl]
  rw [getLast?_append_right ['.'] ds4 hne4]
  exact hcl

/-- C9 counterexample: a success response whose body is a valid address
surrounded by both leading and trailing whitespace resolves to the
bad-address error, not to the address: the source trims only the end of the
body (`trim_end`), so leading whitespace defeats the address parse. -/
theorem C9_counterexample :
    parseIpv4 ("1.2.3.4".toList) = some ⟨1, 2, 3, 4⟩
  ∧ plainTextIpv4 ⟨200, " 1.2.3.4 ".toList⟩ = Except.error Error.ParseAddr
  ∧ plainTextIpv4 ⟨200, " 1.2.3.4 ".toList⟩ ≠ Except.ok ⟨1, 2, 3, 4⟩ := by
  decide

/-- C9 amended: every non-success response yields the bad-response error
carrying its status; for success responses the body is trimmed of trailing
whitespace only — a valid address followed by any whitespace resolves to that
address, a body whose end-trimmed form fails the IPv4 parse (in particular
one with leading whitespace) yields the bad-address error, and one whose
end-trimmed form parses yields the parsed address. -/
theorem C9_amended_plaintext_resolver :
    (∀ r : HttpResponse, statusIsSuccess r.status = false →
      plainTextIpv4 r = Except.error (Error.HttpBadResponse r.status))
  ∧ (∀ (st : Nat) (s ws : List Char) (ip : Ipv4Addr),
      statusIsSuccess st = true → parseIpv4 s = some ip →
      (∀ x ∈ ws, x ∈ rustWhitespaceChars) →
      plainTextIpv4 ⟨st, s ++ ws⟩ = Except.ok ip)
  ∧ (∀ r : HttpResponse, statusIsSuccess r.status = true →
      parseIpv4 (trim_end r.body) = none →
      plainTextIpv4 r = Except.error Error.ParseAddr)
  ∧ (∀ (r : HttpResponse) (ip : Ipv4Addr), statusIsSuccess r.status = true →
      parseIpv4 (trim_end r.body) = some ip →
      plainTextIpv4 r = Except.ok ip) := by
  refine ⟨?_, ?_, ?_, ?_⟩
  · intro r hr
    simp [plainTextIpv4, httpGet, hr]
  · intro st s ws ip hst hp hws
    obtain ⟨c, hlast, hcd⟩ := last_digit_of_parseIpv4 hp
    have hcdig : c ∈ digitChars := by
      have h6 := hcd
      simp [isAsciiDigit] at h6
      exact h6
    have hcw : decide (c ∈ rustWhitespaceChars) = false := by
      fin_cases hcdig <;> decide
    have h1 : trim_end (s ++ ws) = s := by
      rw [trim_end_append_ws s ws hws]
      exact trim_end_of_last_not_ws hlast hcw
    simp [plainTextIpv4, httpGet, hst, h1, hp]
  · intro r hr hp
    simp [plainTextIpv4, httpGet, hr, hp]
  · intro r ip hr hp
    simp [plainTextIpv4, httpGet, hr, hp]

/-- Witness for the amended C9: status 404 gives the bad-response error, and
status 200 with body `1.2.3.4` plus trailing whitespace resolves the address. -/
theorem C9_witness :
    statusIsSuccess 404 = false
  ∧ plainTextIpv4 ⟨404, "1.2.3.4".toList⟩
      = Except.error (Error.HttpBadResponse 404)
  ∧ statusIsSuccess 200 = true
  ∧ parseIpv4 ("1.2.3.4".toList) = some ⟨1, 2, 3, 4⟩
  ∧ (∀ x ∈ ([' ', '\n'] : List Char), x ∈ rustWhitespaceChars)
  ∧ plainTextIpv4 ⟨200, "1.2.3.4".toList ++ [' ', '\n']⟩
      = Except.ok ⟨1, 2, 3, 4⟩ :=
  ⟨by decide,
    C9_amended_plaintext_resolver.1 ⟨404, "1.2.3.4".toList⟩ (by decide),
    by decide, by decide, by decide,
    C9_amended_plaintext_resolver.2.1 200 ("1.2.3.4".toList) [' ', '\n']
      ⟨1, 2, 3, 4⟩ (by decide) (by decide) (by decide)⟩

/-! ## Claim about the Dns resolver branch -/

/-- C10: evaluation of the Dns branch at the claim's own scenario — a DNS
response whose first answer record carries data of a different type than was
queried (a CNAME answer to an A or TXT query) makes the source abort via
`Option::expect` instead of returning an `Error`; an empty answer section
still yields `Error::MissingResponse`, and construction through
`Service::dns` only admits the `A` and `TXT` record types, so the wildcard
`panic!` arm is unreachable for services built by the constructor. -/
theorem C10_dns_first_answer_panics :
    dnsIpv4 RecordType.A [RData.CNAME ("alias.example.com".toList)]
      = DnsOutcome.panics expectedARecordMsg
  ∧ dnsIpv4 RecordType.TXT [RData.CNAME ("alias.example.com".toList)]
      = DnsOutcome.panics expectedTXTRecordMsg
  ∧ dnsIpv4 RecordType.A [] = DnsOutcome.err Error.MissingResponse
  ∧ (∀ rt : DnsRecordType, dnsRecordTypeInto rt = RecordType.A
      ∨ dnsRecordTypeInto rt = RecordType.TXT)
  ∧ (∀ (server : Ipv4Addr × Nat) (rt : DnsRecordType) (name : List Char),
      Service.dnsCtor server rt name
        = Service.Dns server (dnsRecordTypeInto rt) name) := by
  refine ⟨by decide, by decide, by decide, ?_, fun s rt n => rfl⟩
  intro rt
  cases rt
  · exact Or.inl rfl
  · exact Or.inr rfl
